import Mathlib

/-!
Verification development for the typr repository (Rust, Tauri).

The repository contains two iterations of the audio capture engine and
dictation pipeline:
* src/src-tauri/src/audio_processing.rs — MP3 encoder version, with
  process_audio_file (substitution via a chat-completions call, trigger
  phrase scan, escalation call);
* src/app/src-tauri/src/audio_processing.rs — WAV writer version, with
  stop_recording_and_process (unconditional copyedit call with fallback).

Text is modelled as List Char.  Rust String values from the source are
embedded through String.data on Lean string literals.  HTTP interactions
are modelled as oracle parameters: a call site receives a function from
the request text to Except error content, where the error value carries
the already formatted pipeline error (request failure, non-2xx body, or
content extraction failure, exactly the strings the source builds).
-/

/-- Whitespace predicate used by Rust str::trim: the Unicode White_Space
property, enumerated (the source calls trim on transcripts). -/
def rustIsWs (c : Char) : Bool :=
  c = ' ' || c = '\t' || c = '\n' || c = '\r' || c = '\x0b' || c = '\x0c' ||
  c = '\u0085' || c = '\u00a0' || c = '\u1680' ||
  c = '\u2000' || c = '\u2001' || c = '\u2002' || c = '\u2003' ||
  c = '\u2004' || c = '\u2005' || c = '\u2006' || c = '\u2007' ||
  c = '\u2008' || c = '\u2009' || c = '\u200a' ||
  c = '\u2028' || c = '\u2029' || c = '\u202f' || c = '\u205f' || c = '\u3000'

/-- Rust str::trim_start: drop leading whitespace. -/
def trimLeft (l : List Char) : List Char := l.dropWhile rustIsWs

/-- Rust str::trim_end: drop trailing whitespace (structural formulation). -/
def trimRight : List Char → List Char
  | [] => []
  | c :: rest =>
    match trimRight rest with
    | [] => if rustIsWs c then [] else [c]
    | r :: rs => c :: r :: rs

/-- Rust str::trim: drop leading and trailing whitespace. -/
def trimChars (l : List Char) : List Char := trimRight (trimLeft l)

/-- Rust str::lines: split at line feed or carriage return + line feed;
a final line ending is optional; a lone carriage return is kept. -/
def linesChars : List Char → List (List Char)
  | [] => []
  | [c] => if c = '\n' then [[]] else [[c]]
  | c :: d :: rest =>
    if c = '\n' then [] :: linesChars (d :: rest)
    else if c = '\r' ∧ d = '\n' then [] :: linesChars rest
    else
      match linesChars (d :: rest) with
      | [] => [[c]]
      | l :: ls => (c :: l) :: ls

/-- Rust Vec::join with separator "\n", as used on the collected lines. -/
def joinNL : List (List Char) → List Char
  | [] => []
  | [l] => l
  | l :: l2 :: ls => l ++ '\n' :: joinNL (l2 :: ls)

/-- Rust str::replace with pattern two spaces and replacement one space:
one left-to-right pass over non-overlapping occurrences. -/
def collapseDoubleSpaces : List Char → List Char
  | [] => []
  | [c] => [c]
  | c :: d :: rest =>
    if c = ' ' ∧ d = ' ' then ' ' :: collapseDoubleSpaces rest
    else c :: collapseDoubleSpaces (d :: rest)

/-- Whitespace cleanup from process_audio_file (src-tauri version, lines
310-316): trim each line, join with a line feed, then replace each
non-overlapping occurrence of two spaces by one space. -/
def cleanupWhitespace (t : List Char) : List Char :=
  collapseDoubleSpaces (joinNL ((linesChars t).map trimChars))

/-- Rust str::contains with a string pattern: substring test. -/
def containsSub : List Char → List Char → Bool
  | [], needle => needle.isEmpty
  | c :: rest, needle => needle.isPrefixOf (c :: rest) || containsSub rest needle

/-- Rust str::to_lowercase, restricted to its action on ASCII letters
(Char.toLower is the ASCII lowering); the trigger phrase scanned for is
pure ASCII, so the restriction does not affect the scan on the inputs
appearing in the claims. -/
def toLowerChars (t : List Char) : List Char := t.map Char.toLower

/-- Fixed trigger phrase scanned for in process_audio_file line 319. -/
def triggerPhrase : List Char := "note to the editor".data

/-- Substitution rule record from src-tauri audio_processing.rs lines
192-196 (Rust fields from and to; from is a Lean keyword, hence the
renamed fields). -/
structure Replacement where
  fromStr : List Char
  toStr : List Char
deriving DecidableEq, Repr

/-- Hard-coded rule list from process_audio_file lines 207-211. -/
def replacements : List Replacement :=
  [{ fromStr := "slap".data, toStr := "\n".data }]

/-- ASCII apostrophe, used when rendering rules. -/
def quoteChar : Char := '\''

/-- Rendering of one rule inside the substitution request, from line 273:
quote, from string, quote, arrow, quote, to string, quote. -/
def renderRule (r : Replacement) : List Char :=
  quoteChar :: r.fromStr ++ quoteChar :: " -> ".data ++ quoteChar :: r.toStr ++ [quoteChar]

/-- The rendered rule list joined with line feeds (line 273). -/
def renderRules (reps : List Replacement) : List Char :=
  joinNL (reps.map renderRule)

/-- User message of the substitution chat-completions request, from
line 273 of process_audio_file. -/
def substUserMsg (reps : List Replacement) (transcription : List Char) : List Char :=
  "Keyword substitutions (when the user uses the keyword, they are really meaning to add the replacement text): ".data
    ++ renderRules reps ++ "\n\nTranscription: ".data ++ transcription

/-- User message of the escalation chat-completions request, from
line 334 of process_audio_file. -/
def escUserMsg (llm_prompt transcription : List Char) : List Char :=
  "Task: ".data ++ llm_prompt ++ "\n\nTranscription: ".data ++ transcription

/-- Result record of process_audio_file (src-tauri) and of
stop_recording_and_process (app iteration). -/
structure AudioProcessingResult where
  transcription : List Char
  openai_response : List Char
deriving DecidableEq, Repr

/-- The dictation pipeline of src-tauri audio_processing.rs lines
199-376 (process_audio_file), from the transcription response onward.
whisperResponse is the outcome of the speech-to-text call;
substService and escalationService map the user-message text of the two
chat-completions requests to their outcome.  An error value carries the
formatted pipeline error exactly as returned by the source (request
failure, OpenAI API error body, or failed content extraction). -/
def processAudioFile (whisperResponse : Except (List Char) (List Char))
    (substService escalationService : List Char → Except (List Char) (List Char))
    (llm_prompt : List Char) : Except (List Char) AudioProcessingResult :=
  match whisperResponse with
  | Except.error e => Except.error e
  | Except.ok transcription0 =>
    match (if 0 < replacements.length then
             match substService (substUserMsg replacements transcription0) with
             | Except.error e => Except.error e
             | Except.ok content => Except.ok (trimChars content)
           else Except.ok (trimChars transcription0) :
           Except (List Char) (List Char)) with
    | Except.error e => Except.error e
    | Except.ok t1 =>
      match (if containsSub (toLowerChars (cleanupWhitespace t1)) triggerPhrase then
               match escalationService (escUserMsg llm_prompt (cleanupWhitespace t1)) with
               | Except.error e => Except.error e
               | Except.ok content => Except.ok (trimChars content)
             else Except.ok (trimChars (cleanupWhitespace t1)) :
             Except (List Char) (List Char)) with
      | Except.error e => Except.error e
      | Except.ok openai_response =>
        Except.ok { transcription := cleanupWhitespace t1,
                    openai_response := openai_response }

/-- Fixed message returned by the app iteration when the stored key is
missing (app audio_processing.rs lines 454-459). -/
def apiKeyMissingMsg : List Char :=
  "OpenAI API key not found. Please add your API key in the settings.".data

/-- The pipeline of the app iteration, stop_recording_and_process (app
audio_processing.rs lines 429-479), from the recorded path onward:
whisperService is the outcome of process_audio_with_gpt4o, and
gptService maps the transcription to the outcome of
process_transcription_with_gpt4o; a failure of the latter falls back to
the transcription itself. -/
def stopRecordingAndProcess (audioPath : Option (List Char))
    (whisperService : Except (List Char) (List Char))
    (gptService : List Char → Except (List Char) (List Char)) :
    Except (List Char) AudioProcessingResult :=
  match audioPath with
  | none => Except.error "No audio was recorded".data
  | some _ =>
    match whisperService with
    | Except.error e =>
      Except.error (if containsSub e "API key not found".data then apiKeyMissingMsg
                    else "Failed to process audio: ".data ++ e)
    | Except.ok transcription =>
      match gptService transcription with
      | Except.ok text =>
        Except.ok { transcription := transcription, openai_response := text }
      | Except.error _ =>
        Except.ok { transcription := transcription, openai_response := transcription }

/-- Sample formats reported by cpal; the variant other carries the Debug
rendering of the unmatched format. -/
inductive SampleFormat where
  | f32
  | i16
  | u16
  | other (dbg : List Char)
deriving DecidableEq, Repr

/-- Debug rendering of a sample format, as interpolated into the
Unsupported sample format error message. -/
def sampleFormatDbg : SampleFormat → List Char
  | SampleFormat.f32 => "F32".data
  | SampleFormat.i16 => "I16".data
  | SampleFormat.u16 => "U16".data
  | SampleFormat.other dbg => dbg

namespace SrcTauri

/-- Device input configuration (cpal default_input_config) as used by the
MP3 iteration. -/
structure InputConfig where
  channels : Nat
  sample_rate : Nat
  sample_format : SampleFormat
deriving DecidableEq, Repr

/-- AudioRecorder state of src-tauri audio_processing.rs lines 23-29.
Stream, encoder and file handles are opaque (Nat). -/
structure RecorderState where
  is_recording : Bool
  stream : Option Nat
  encoder : Option Nat
  output_file : Option Nat
  current_file : Option (List Char)
deriving DecidableEq, Repr

/-- Environment of one start_recording call: the outcome of each fallible
external step, in source order (the LAME builder calls use expect and
panic rather than return, so they are not failure points of the Result).
-/
structure StartEnv where
  default_input_device : Option Unit
  device_name : Except (List Char) (List Char)
  default_input_config : Except (List Char) InputConfig
  create_dir_all : Except (List Char) Unit
  file_create : Except (List Char) Unit
  timestamp : List Char
  build_input_stream : Except (List Char) Unit
  stream_play : Except (List Char) Unit

/-- Output path built at line 79: /tmp/typr/recording_TIMESTAMP.mp3. -/
def recordingPath (timestamp : List Char) : List Char :=
  "/tmp/typr/recording_".data ++ timestamp ++ ".mp3".data

/-- start_recording of src-tauri audio_processing.rs lines 48-159.  The
guard flag is set before any fallible work; current_file is assigned
before the stream is built; only the F32 sample format builds a stream.
-/
def startRecording (st : RecorderState) (env : StartEnv) :
    Except (List Char) Unit × RecorderState :=
  if st.is_recording then (Except.error "Already recording".data, st)
  else
    let st1 := { st with is_recording := true }
    match env.default_input_device with
    | none => (Except.error "No input device available".data, st1)
    | some _ =>
      match env.device_name with
      | Except.error e => (Except.error e, st1)
      | Except.ok _ =>
        match env.default_input_config with
        | Except.error e =>
          (Except.error ("Failed to get default input config: ".data ++ e), st1)
        | Except.ok cfg =>
          match env.create_dir_all with
          | Except.error e => (Except.error e, st1)
          | Except.ok _ =>
            match env.file_create with
            | Except.error e => (Except.error e, st1)
            | Except.ok _ =>
              let st2 := { st1 with current_file := some (recordingPath env.timestamp) }
              match cfg.sample_format with
              | SampleFormat.f32 =>
                match env.build_input_stream with
                | Except.error e => (Except.error e, st2)
                | Except.ok _ =>
                  match env.stream_play with
                  | Except.error e => (Except.error e, st2)
                  | Except.ok _ =>
                    (Except.ok (),
                     { st2 with stream := some 0, encoder := some 0, output_file := some 0 })
              | fmt =>
                (Except.error ("Unsupported sample format: ".data ++ sampleFormatDbg fmt), st2)

/-- stop_recording of src-tauri audio_processing.rs lines 162-189.  The
flushWrite argument is the outcome of the encoder flush and of the final
write_all; the source inspects both only through if-let and .ok(), so a
failure there is discarded and the function still returns the recorded
path. -/
def stopRecording (st : RecorderState) (_flushWrite : Except (List Char) Unit) :
    Except (List Char) (Option (List Char)) × RecorderState :=
  if st.is_recording = false then (Except.ok none, st)
  else
    (Except.ok st.current_file,
     { st with is_recording := false, stream := none, encoder := none,
               output_file := none, current_file := none })

end SrcTauri

namespace App

/-- AudioRecorder state of app audio_processing.rs lines 31-36. -/
structure RecorderState where
  is_recording : Bool
  stream : Option Nat
  writer : Option Nat
  temp_file : Option (List Char)
deriving DecidableEq, Repr

/-- Environment of one start_recording call of the app iteration, in
source order: temp file creation, file creation, WAV writer creation,
device lookup, input config, stream build, stream play. -/
structure StartEnv where
  temp_file_create : Except (List Char) (List Char)
  file_create : Except (List Char) Unit
  wav_writer_new : Except (List Char) Unit
  default_input_device : Option Unit
  default_input_config : Except (List Char) SampleFormat
  build_input_stream : Except (List Char) Unit
  stream_play : Except (List Char) Unit

/-- start_recording of app audio_processing.rs lines 54-157.  The guard
flag is set before any fallible work; the temp_file field is only
assigned on full success; I16, F32 and U16 sample formats are supported.
-/
def startRecording (st : RecorderState) (env : StartEnv) :
    Except (List Char) Unit × RecorderState :=
  if st.is_recording then (Except.error "Already recording".data, st)
  else
    let st1 := { st with is_recording := true }
    match env.temp_file_create with
    | Except.error e => (Except.error e, st1)
    | Except.ok path =>
      match env.file_create with
      | Except.error e => (Except.error e, st1)
      | Except.ok _ =>
        match env.wav_writer_new with
        | Except.error e => (Except.error e, st1)
        | Except.ok _ =>
          match env.default_input_device with
          | none => (Except.error "No input device available".data, st1)
          | some _ =>
            match env.default_input_config with
            | Except.error e => (Except.error e, st1)
            | Except.ok fmt =>
              match fmt with
              | SampleFormat.other dbg =>
                (Except.error ("Unsupported sample format: ".data ++ dbg), st1)
              | _ =>
                match env.build_input_stream with
                | Except.error e => (Except.error e, st1)
                | Except.ok _ =>
                  match env.stream_play with
                  | Except.error e => (Except.error e, st1)
                  | Except.ok _ =>
                    (Except.ok (),
                     { st1 with stream := some 0, writer := some 0,
                                temp_file := some path })

/-- stop_recording of app audio_processing.rs lines 160-191.  The
finalize argument folds the Arc unwrap, mutex into_inner and WavWriter
finalize outcomes; a failure there is propagated with the question-mark
operator, after the stream and writer have already been taken but before
the temp file is taken. -/
def stopRecording (st : RecorderState) (finalize : Except (List Char) Unit) :
    Except (List Char) (Option (List Char)) × RecorderState :=
  if st.is_recording = false then (Except.ok none, st)
  else
    let st1 := { st with is_recording := false, stream := none }
    match st.writer with
    | none => (Except.ok st1.temp_file, { st1 with temp_file := none })
    | some _ =>
      let st2 := { st1 with writer := none }
      match finalize with
      | Except.error e => (Except.error e, st2)
      | Except.ok _ => (Except.ok st2.temp_file, { st2 with temp_file := none })

/-- is_recording of app audio_processing.rs lines 194-196: pure flag
read. -/
def isRecording (st : RecorderState) : Bool := st.is_recording

end App

/-- Fuel-driven worker for literal non-overlapping left-to-right
find/replace; fuel bounds the number of consumed characters. -/
def replaceListGo (pat rep : List Char) : Nat → List Char → List Char
  | _, [] => []
  | 0, t => t
  | fuel + 1, c :: rest =>
    if pat.isPrefixOf (c :: rest) then
      rep ++ replaceListGo pat rep fuel (List.drop (pat.length - 1) rest)
    else c :: replaceListGo pat rep fuel rest

/-- Literal find/replace of every non-overlapping occurrence, scanning
left to right (the behaviour of Rust str::replace for a non-empty
pattern). -/
def replaceList (pat rep t : List Char) : List Char :=
  if pat.isEmpty then t else replaceListGo pat rep t.length t

/-- Modelled from the spec: normalization section 4.3 describes applying
each substitution rule as a literal find/replace pass over the raw
transcript, rules in list order, first rule fully before the next, every
occurrence replaced.  This definition follows those words; the source
performs no such pass (it sends the rules to a chat-completions call),
which is what claim C1 is compared against. -/
def specApplySubstitutions (reps : List Replacement) (t : List Char) : List Char :=
  reps.foldl (fun acc r => replaceList r.fromStr r.toStr acc) t

/-- Fuel-driven collapse of every run of whitespace into one space. -/
def collapseRunsGo : Nat → List Char → List Char
  | _, [] => []
  | 0, t => t
  | fuel + 1, c :: rest =>
    if rustIsWs c then ' ' :: collapseRunsGo fuel (rest.dropWhile rustIsWs)
    else c :: collapseRunsGo fuel rest

/-- Modelled from the spec: whitespace cleanup as section 4.3 describes
it — trim each line, drop blank lines, and collapse every run of
interior whitespace to a single space.  The source instead keeps blank
lines and only replaces double spaces once, which is what claim C4 is
compared against. -/
def specCleanup (t : List Char) : List Char :=
  joinNL ((((linesChars t).map trimChars).filter (fun l => l.isEmpty = false)).map
    (fun l => collapseRunsGo l.length l))

theorem trimLeft_head_not_ws (l : List Char) (c : Char)
    (h : (trimLeft l).head? = some c) : rustIsWs c = false := by
  induction l with
  | nil => simp [trimLeft] at h
  | cons a t ih =>
    rw [trimLeft, List.dropWhile_cons] at h
    by_cases hws : rustIsWs a = true
    · rw [if_pos hws] at h
      exact ih h
    · rw [if_neg hws] at h
      rw [List.head?_cons, Option.some.injEq] at h
      rw [← h]
      exact Bool.not_eq_true _ |>.mp hws

theorem trimRight_getLast_not_ws (l : List Char) (d : Char)
    (h : (trimRight l).getLast? = some d) : rustIsWs d = false := by
  induction l with
  | nil => simp [trimRight] at h
  | cons a t ih =>
    rw [trimRight] at h
    cases htr : trimRight t with
    | nil =>
      rw [htr] at h
      by_cases hws : rustIsWs a = true
      · rw [if_pos hws] at h
        simp at h
      · rw [if_neg hws] at h
        rw [List.getLast?_singleton, Option.some.injEq] at h
        rw [← h]
        exact Bool.not_eq_true _ |>.mp hws
    | cons r rs =>
      rw [htr, List.getLast?_cons_cons] at h
      exact ih (htr ▸ h)

theorem trimRight_head? (l : List Char) :
    trimRight l = [] ∨ (trimRight l).head? = l.head? := by
  induction l with
  | nil => exact Or.inl rfl
  | cons a t _ =>
    rw [trimRight]
    cases htr : trimRight t with
    | nil =>
      by_cases hws : rustIsWs a = true
      · rw [if_pos hws]; exact Or.inl rfl
      · rw [if_neg hws]; exact Or.inr rfl
    | cons r rs => exact Or.inr rfl

theorem trimLeft_eq_self (l : List Char)
    (h : ∀ c, l.head? = some c → rustIsWs c = false) : trimLeft l = l := by
  cases l with
  | nil => rfl
  | cons a t =>
    rw [trimLeft, List.dropWhile_cons, if_neg]
    rw [h a (List.head?_cons)]
    simp

theorem trimRight_eq_self (l : List Char)
    (h : ∀ d, l.getLast? = some d → rustIsWs d = false) : trimRight l = l := by
  induction l with
  | nil => rfl
  | cons a t ih =>
    rw [trimRight]
    cases t with
    | nil =>
      simp only [trimRight]
      rw [if_neg]
      rw [h a (List.getLast?_singleton a)]
      simp
    | cons b u =>
      have ht : trimRight (b :: u) = b :: u := by
        apply ih
        intro d hd
        exact h d (by rw [List.getLast?_cons_cons]; exact hd)
      rw [ht]

theorem trimChars_eq_self (l : List Char)
    (h1 : ∀ c, l.head? = some c → rustIsWs c = false)
    (h2 : ∀ d, l.getLast? = some d → rustIsWs d = false) : trimChars l = l := by
  rw [trimChars, trimLeft_eq_self l h1, trimRight_eq_self l h2]

theorem trimChars_head_not_ws (l : List Char) (c : Char)
    (h : (trimChars l).head? = some c) : rustIsWs c = false := by
  rw [trimChars] at h
  rcases trimRight_head? (trimLeft l) with hnil | hhead
  · rw [hnil] at h
    simp at h
  · rw [hhead] at h
    exact trimLeft_head_not_ws l c h

theorem trimChars_getLast_not_ws (l : List Char) (d : Char)
    (h : (trimChars l).getLast? = some d) : rustIsWs d = false :=
  trimRight_getLast_not_ws (trimLeft l) d h

theorem trimRight_ne_nil_of_head (c : Char) (l : List Char)
    (h : rustIsWs c = false) : trimRight (c :: l) ≠ [] := by
  rw [trimRight]
  cases htr : trimRight l with
  | nil =>
    rw [if_neg]
    · simp
    · rw [h]; simp
  | cons r rs => simp

theorem trimChars_cons_head (c : Char) (l : List Char)
    (h : rustIsWs c = false) : (trimChars (c :: l)).head? = some c := by
  have hleft : trimLeft (c :: l) = c :: l := by
    rw [trimLeft, List.dropWhile_cons, if_neg]
    rw [h]; simp
  rw [trimChars, hleft]
  rcases trimRight_head? (c :: l) with hnil | hhead
  · exact absurd hnil (trimRight_ne_nil_of_head c l h)
  · rw [hhead, List.head?_cons]

theorem trimLeft_concat (l : List Char) (d : Char)
    (h : rustIsWs d = false) : ∃ m, trimLeft (l ++ [d]) = m ++ [d] := by
  induction l with
  | nil =>
    refine ⟨[], ?_⟩
    rw [List.nil_append, trimLeft, List.dropWhile_cons, if_neg]
    rw [h]; simp
  | cons a t ih =>
    rw [List.cons_append, trimLeft, List.dropWhile_cons]
    by_cases hws : rustIsWs a = true
    · rw [if_pos hws]
      exact ih
    · rw [if_neg hws]
      obtain ⟨m, _⟩ := ih
      exact ⟨a :: t, rfl⟩

theorem trimChars_concat (l : List Char) (d : Char)
    (h : rustIsWs d = false) : ∃ m, trimChars (l ++ [d]) = m ++ [d] := by
  obtain ⟨m, hm⟩ := trimLeft_concat l d h
  refine ⟨m, ?_⟩
  rw [trimChars, hm]
  apply trimRight_eq_self
  intro x hx
  rw [List.getLast?_concat, Option.some.injEq] at hx
  rw [← hx]
  exact h

theorem not_ws_ne (c x : Char) (hx : rustIsWs x = true) (h : rustIsWs c = false) :
    ¬ c = x := by
  intro heq
  rw [heq, hx] at h
  cases h

theorem linesChars_ne_nil (a : Char) (t : List Char) : linesChars (a :: t) ≠ [] := by
  cases t with
  | nil =>
    simp only [linesChars]
    split <;> simp
  | cons d rest =>
    simp only [linesChars]
    split
    · simp
    · split
      · simp
      · split <;> simp

theorem linesChars_head (u : List Char) (c : Char)
    (h1 : u.head? = some c) (h2 : rustIsWs c = false) :
    ∃ l ls, linesChars u = (c :: l) :: ls := by
  cases u with
  | nil => simp at h1
  | cons a t =>
    rw [List.head?_cons, Option.some.injEq] at h1
    subst h1
    cases t with
    | nil =>
      refine ⟨[], [], ?_⟩
      simp only [linesChars]
      rw [if_neg (not_ws_ne a '\n' (by decide) h2)]
    | cons d rest =>
      simp only [linesChars]
      rw [if_neg (not_ws_ne a '\n' (by decide) h2)]
      rw [if_neg (fun hand => not_ws_ne a '\r' (by decide) h2 hand.1)]
      cases hld : linesChars (d :: rest) with
      | nil => exact absurd hld (linesChars_ne_nil d rest)
      | cons l ls => exact ⟨l, ls, rfl⟩

theorem linesChars_last : ∀ (u : List Char) (d : Char),
    u.getLast? = some d → rustIsWs d = false →
    ∃ ls m, linesChars u = ls ++ [m ++ [d]]
  | [], d, h, _ => by simp at h
  | [c], d, h, hws => by
    rw [List.getLast?_singleton, Option.some.injEq] at h
    subst h
    refine ⟨[], [], ?_⟩
    simp only [linesChars]
    rw [if_neg (not_ws_ne c '\n' (by decide) hws)]
    simp
  | c :: e :: rest, d, h, hws => by
    rw [List.getLast?_cons_cons] at h
    simp only [linesChars]
    by_cases hc : c = '\n'
    · rw [if_pos hc]
      obtain ⟨ls, m, hm⟩ := linesChars_last (e :: rest) d h hws
      exact ⟨[] :: ls, m, by rw [hm, List.cons_append]⟩
    · rw [if_neg hc]
      by_cases hcr : c = '\r' ∧ e = '\n'
      · rw [if_pos hcr]
        cases rest with
        | nil =>
          rw [List.getLast?_singleton, Option.some.injEq] at h
          rw [← h, hcr.2] at hws
          cases hws
        | cons x xs =>
          rw [List.getLast?_cons_cons] at h
          obtain ⟨ls, m, hm⟩ := linesChars_last (x :: xs) d h hws
          exact ⟨[] :: ls, m, by rw [hm, List.cons_append]⟩
      · rw [if_neg hcr]
        obtain ⟨ls, m, hm⟩ := linesChars_last (e :: rest) d h hws
        cases ls with
        | nil =>
          rw [List.nil_append] at hm
          rw [hm]
          exact ⟨[], c :: m, by rw [List.cons_append]; rfl⟩
        | cons y ys =>
          rw [List.cons_append] at hm
          rw [hm]
          exact ⟨(c :: y) :: ys, m, by rw [List.cons_append]⟩

theorem joinNL_head (c : Char) (l : List Char) (ls : List (List Char)) :
    (joinNL ((c :: l) :: ls)).head? = some c := by
  cases ls with
  | nil => rw [joinNL, List.head?_cons]
  | cons l2 ls2 =>
    rw [joinNL, List.cons_append, List.head?_cons]

theorem joinNL_concat (ls : List (List Char)) (m : List Char) :
    ∃ pre, joinNL (ls ++ [m]) = pre ++ m := by
  induction ls with
  | nil => exact ⟨[], by rw [List.nil_append, joinNL, List.nil_append]⟩
  | cons x xs ih =>
    cases xs with
    | nil =>
      refine ⟨x ++ ['\n'], ?_⟩
      rw [List.singleton_append, joinNL, joinNL, List.append_assoc, List.singleton_append]
    | cons y ys =>
      obtain ⟨pre, hpre⟩ := ih
      refine ⟨x ++ '\n' :: pre, ?_⟩
      rw [List.cons_append, List.cons_append, joinNL, ← List.cons_append, hpre,
        List.append_assoc, List.cons_append]

theorem joinNL_last (ls : List (List Char)) (m : List Char) (d : Char) :
    (joinNL (ls ++ [m ++ [d]])).getLast? = some d := by
  obtain ⟨pre, hpre⟩ := joinNL_concat ls (m ++ [d])
  rw [hpre, ← List.append_assoc, List.getLast?_concat]

theorem collapse_cons_ne (c : Char) (t : List Char) (h : ¬ c = ' ') :
    collapseDoubleSpaces (c :: t) = c :: collapseDoubleSpaces t := by
  cases t with
  | nil => rfl
  | cons e rest =>
    simp only [collapseDoubleSpaces]
    rw [if_neg (fun hand => h hand.1)]

theorem collapse_head (t : List Char) (c : Char)
    (h1 : t.head? = some c) (h2 : ¬ c = ' ') :
    (collapseDoubleSpaces t).head? = some c := by
  cases t with
  | nil => simp at h1
  | cons a t' =>
    rw [List.head?_cons, Option.some.injEq] at h1
    subst h1
    rw [collapse_cons_ne a t' h2, List.head?_cons]

theorem collapse_getLast : ∀ (t : List Char) (d : Char),
    t.getLast? = some d → ¬ d = ' ' →
    (collapseDoubleSpaces t).getLast? = some d
  | [], d, h, _ => by simp at h
  | [c], d, h, _ => by
    rw [List.getLast?_singleton, Option.some.injEq] at h
    subst h
    rfl
  | c :: e :: rest, d, h, hd => by
    rw [List.getLast?_cons_cons] at h
    simp only [collapseDoubleSpaces]
    by_cases hsp : c = ' ' ∧ e = ' '
    · rw [if_pos hsp]
      cases rest with
      | nil =>
        rw [List.getLast?_singleton, Option.some.injEq] at h
        rw [← h, hsp.2] at hd
        exact absurd rfl hd
      | cons x xs =>
        rw [List.getLast?_cons_cons] at h
        have ih := collapse_getLast (x :: xs) d h hd
        cases hcol : collapseDoubleSpaces (x :: xs) with
        | nil => rw [hcol] at ih; simp at ih
        | cons r rs =>
          rw [hcol] at ih
          rw [List.getLast?_cons_cons]
          exact ih
    · rw [if_neg hsp]
      have ih := collapse_getLast (e :: rest) d h hd
      cases hcol : collapseDoubleSpaces (e :: rest) with
      | nil => rw [hcol] at ih; simp at ih
      | cons r rs =>
        rw [hcol] at ih
        rw [List.getLast?_cons_cons]
        exact ih

theorem cleanup_boundary (u : List Char)
    (h1 : ∀ c, u.head? = some c → rustIsWs c = false)
    (h2 : ∀ d, u.getLast? = some d → rustIsWs d = false) :
    trimChars (cleanupWhitespace u) = cleanupWhitespace u := by
  cases u with
  | nil => rfl
  | cons a t =>
    have hwa : rustIsWs a = false := h1 a List.head?_cons
    cases hLast : (a :: t).getLast? with
    | none => exact absurd (List.getLast?_eq_none_iff.mp hLast) (List.cons_ne_nil a t)
    | some d =>
      have hwd := h2 d hLast
      obtain ⟨l0, ls0, hlines⟩ := linesChars_head (a :: t) a List.head?_cons hwa
      obtain ⟨ls2, m2, hlast⟩ := linesChars_last (a :: t) d hLast hwd
      have hmap1 : (linesChars (a :: t)).map trimChars
          = trimChars (a :: l0) :: ls0.map trimChars := by
        rw [hlines, List.map_cons]
      have hh : (trimChars (a :: l0)).head? = some a := trimChars_cons_head a l0 hwa
      obtain ⟨restT, hrest⟩ : ∃ r, trimChars (a :: l0) = a :: r := by
        cases htc : trimChars (a :: l0) with
        | nil => rw [htc] at hh; simp at hh
        | cons x xs =>
          rw [htc, List.head?_cons, Option.some.injEq] at hh
          exact ⟨xs, by rw [hh]⟩
      have hjoinhead : (joinNL ((linesChars (a :: t)).map trimChars)).head? = some a := by
        rw [hmap1, hrest]
        exact joinNL_head a restT (ls0.map trimChars)
      obtain ⟨m3, hm3⟩ := trimChars_concat m2 d hwd
      have hmap2 : (linesChars (a :: t)).map trimChars
          = ls2.map trimChars ++ [m3 ++ [d]] := by
        rw [hlast, List.map_append, List.map_singleton, hm3]
      have hjoinlast : (joinNL ((linesChars (a :: t)).map trimChars)).getLast? = some d := by
        rw [hmap2]
        exact joinNL_last (ls2.map trimChars) m3 d
      have hclh : (cleanupWhitespace (a :: t)).head? = some a := by
        rw [cleanupWhitespace]
        exact collapse_head _ a hjoinhead (not_ws_ne a ' ' (by decide) hwa)
      have hcll : (cleanupWhitespace (a :: t)).getLast? = some d := by
        rw [cleanupWhitespace]
        exact collapse_getLast _ d hjoinlast (not_ws_ne d ' ' (by decide) hwd)
      apply trimChars_eq_self
      · intro c hc
        rw [hclh, Option.some.injEq] at hc
        rw [← hc]
        exact hwa
      · intro x hx
        rw [hcll, Option.some.injEq] at hx
        rw [← hx]
        exact hwd

theorem trim_cleanup_trimChars (s : List Char) :
    trimChars (cleanupWhitespace (trimChars s)) = cleanupWhitespace (trimChars s) :=
  cleanup_boundary (trimChars s)
    (fun c hc => trimChars_head_not_ws s c hc)
    (fun d hd => trimChars_getLast_not_ws s d hd)

theorem processAudioFile_subst_ok (raw content p : List Char)
    (substO escO : List Char → Except (List Char) (List Char))
    (hs : substO (substUserMsg replacements raw) = Except.ok content) :
    processAudioFile (Except.ok raw) substO escO p =
      (if containsSub (toLowerChars (cleanupWhitespace (trimChars content))) triggerPhrase then
         match escO (escUserMsg p (cleanupWhitespace (trimChars content))) with
         | Except.error e => Except.error e
         | Except.ok c2 =>
           Except.ok { transcription := cleanupWhitespace (trimChars content),
                       openai_response := trimChars c2 }
       else
         Except.ok { transcription := cleanupWhitespace (trimChars content),
                     openai_response := trimChars (cleanupWhitespace (trimChars content)) }) := by
  simp only [processAudioFile]
  rw [if_pos (by decide : 0 < replacements.length)]
  simp only [hs]
  by_cases htrig :
      containsSub (toLowerChars (cleanupWhitespace (trimChars content))) triggerPhrase = true
  · rw [if_pos htrig, if_pos htrig]
    cases hesc : escO (escUserMsg p (cleanupWhitespace (trimChars content))) <;> simp
  · rw [if_neg htrig, if_neg htrig]

theorem processAudioFile_subst_err (raw p e : List Char)
    (substO escO : List Char → Except (List Char) (List Char))
    (hs : substO (substUserMsg replacements raw) = Except.error e) :
    processAudioFile (Except.ok raw) substO escO p = Except.error e := by
  simp only [processAudioFile]
  rw [if_pos (by decide : 0 < replacements.length)]
  simp only [hs]

theorem srcTauri_already (st : SrcTauri.RecorderState) (env : SrcTauri.StartEnv)
    (h : st.is_recording = true) :
    SrcTauri.startRecording st env = (Except.error "Already recording".data, st) := by
  rw [SrcTauri.startRecording, if_pos h]

theorem app_already (st : App.RecorderState) (env : App.StartEnv)
    (h : st.is_recording = true) :
    App.startRecording st env = (Except.error "Already recording".data, st) := by
  rw [App.startRecording, if_pos h]

theorem srcTauri_start_flag (st : SrcTauri.RecorderState) (env : SrcTauri.StartEnv)
    (h : st.is_recording = false) :
    (SrcTauri.startRecording st env).2.is_recording = true := by
  rw [SrcTauri.startRecording, if_neg (by rw [h]; simp)]
  repeat' split
  all_goals rfl

theorem app_start_flag (st : App.RecorderState) (env : App.StartEnv)
    (h : st.is_recording = false) :
    (App.startRecording st env).2.is_recording = true := by
  rw [App.startRecording, if_neg (by rw [h]; simp)]
  repeat' split
  all_goals rfl

/-- C7 counterexample: a stop call in the Recording state of the MP3
iteration whose encoder flush and final write fail still returns Ok with
the recorded path — the failure is not reported to the caller. -/
theorem c7_stop_flush_counterexample :
    SrcTauri.stopRecording
        { is_recording := true, stream := some 0, encoder := some 0,
          output_file := some 0,
          current_file := some "/tmp/typr/recording_1.mp3".data }
        (Except.error "disk full".data)
      = (Except.ok (some "/tmp/typr/recording_1.mp3".data),
         { is_recording := false, stream := none, encoder := none,
           output_file := none, current_file := none }) := rfl

/-- C7 amended: in the WAV iteration (app), a finalize failure while
Recording is reported to the caller as an error, with the stream and
writer discarded (the temp-file handle stays behind); in the MP3
iteration (src-tauri), a flush or write failure while Recording is
silently discarded and stop still returns Ok with the recorded path; in
both iterations the stream teardown happens regardless. -/
theorem c7_stop_finalize_report :
    (∀ (st : App.RecorderState) (w : Nat) (e : List Char),
       st.is_recording = true → st.writer = some w →
       App.stopRecording st (Except.error e) =
         (Except.error e,
          { st with is_recording := false, stream := none, writer := none })) ∧
    (∀ (st : SrcTauri.RecorderState) (fw : Except (List Char) Unit),
       st.is_recording = true →
       SrcTauri.stopRecording st fw =
         (Except.ok st.current_file,
          { st with is_recording := false, stream := none, encoder := none,
                    output_file := none, current_file := none })) := by
  constructor
  · intro st w e h hw
    rw [App.stopRecording, if_neg (by rw [h]; simp), hw]
  · intro st fw h
    rw [SrcTauri.stopRecording, if_neg (by rw [h]; simp)]

/-- C7 witness for the amended theorem at a concrete recording state. -/
theorem c7_stop_finalize_report_witness :
    App.stopRecording
        { is_recording := true, stream := some 3, writer := some 4,
          temp_file := some "/tmp/wav7".data }
        (Except.error "finalize failed".data)
      = (Except.error "finalize failed".data,
         { is_recording := false, stream := none, writer := none,
           temp_file := some "/tmp/wav7".data }) ∧
    SrcTauri.stopRecording
        { is_recording := true, stream := some 5, encoder := some 6,
          output_file := some 7, current_file := some "/tmp/typr/recording_7.mp3".data }
        (Except.error "flush failed".data)
      = (Except.ok (some "/tmp/typr/recording_7.mp3".data),
         { is_recording := false, stream := none, encoder := none,
           output_file := none, current_file := none }) :=
  ⟨c7_stop_finalize_report.1 _ 4 _ rfl rfl, c7_stop_finalize_report.2 _ _ rfl⟩

/-- C8: in both iterations, a start call while a recording is in
progress returns the Already recording error and returns the recorder
state unchanged (artifact path, stream and encoder or writer handles
included). -/
theorem c8_start_already_recording :
    (∀ (st : SrcTauri.RecorderState) (env : SrcTauri.StartEnv),
       st.is_recording = true →
       SrcTauri.startRecording st env = (Except.error "Already recording".data, st)) ∧
    (∀ (st : App.RecorderState) (env : App.StartEnv),
       st.is_recording = true →
       App.startRecording st env = (Except.error "Already recording".data, st)) :=
  ⟨srcTauri_already, app_already⟩

/-- C8 witness at concrete recording states and environments. -/
theorem c8_start_already_recording_witness :
    SrcTauri.startRecording
        { is_recording := true, stream := some 0, encoder := some 1,
          output_file := some 2, current_file := some "/tmp/typr/recording_8.mp3".data }
        { default_input_device := some (), device_name := Except.ok "mic".data,
          default_input_config :=
            Except.ok { channels := 2, sample_rate := 44100,
                        sample_format := SampleFormat.f32 },
          create_dir_all := Except.ok (), file_create := Except.ok (),
          timestamp := "20250101_000000".data,
          build_input_stream := Except.ok (), stream_play := Except.ok () }
      = (Except.error "Already recording".data,
         { is_recording := true, stream := some 0, encoder := some 1,
           output_file := some 2, current_file := some "/tmp/typr/recording_8.mp3".data }) ∧
    App.startRecording
        { is_recording := true, stream := some 1, writer := some 2,
          temp_file := some "/tmp/wav8".data }
        { temp_file_create := Except.ok "/tmp/wav9".data, file_create := Except.ok (),
          wav_writer_new := Except.ok (), default_input_device := some (),
          default_input_config := Except.ok SampleFormat.i16,
          build_input_stream := Except.ok (), stream_play := Except.ok () }
      = (Except.error "Already recording".data,
         { is_recording := true, stream := some 1, writer := some 2,
           temp_file := some "/tmp/wav8".data }) :=
  ⟨c8_start_already_recording.1 _ _ rfl, c8_start_already_recording.2 _ _ rfl⟩

/-- C9: in both iterations, a stop call while not recording is a success
no-op: it returns Ok none and the state is returned unchanged, whatever
the flush or finalize environment would have done. -/
theorem c9_stop_idle_noop :
    (∀ (st : SrcTauri.RecorderState) (fw : Except (List Char) Unit),
       st.is_recording = false →
       SrcTauri.stopRecording st fw = (Except.ok none, st)) ∧
    (∀ (st : App.RecorderState) (fin : Except (List Char) Unit),
       st.is_recording = false →
       App.stopRecording st fin = (Except.ok none, st)) := by
  constructor
  · intro st fw h
    rw [SrcTauri.stopRecording, if_pos h]
  · intro st fin h
    rw [App.stopRecording, if_pos h]

/-- C9 witness at concrete idle states. -/
theorem c9_stop_idle_noop_witness :
    SrcTauri.stopRecording
        { is_recording := false, stream := none, encoder := none,
          output_file := none, current_file := none }
        (Except.error "would be ignored".data)
      = (Except.ok none,
         { is_recording := false, stream := none, encoder := none,
           output_file := none, current_file := none }) ∧
    App.stopRecording
        { is_recording := false, stream := none, writer := none, temp_file := none }
        (Except.ok ())
      = (Except.ok none,
         { is_recording := false, stream := none, writer := none, temp_file := none }) :=
  ⟨c9_stop_idle_noop.1 _ _ rfl, c9_stop_idle_noop.2 _ _ rfl⟩

/-- C10: in both iterations, start sets the shared recording flag before
any fallible setup work and never resets it on an error path: after a
failed start from the idle state (an error other than Already
recording), the flag reads true and every later start call returns the
Already recording error while leaving the stuck state unchanged. -/
theorem c10_error_leaves_flag_set :
    (∀ (st : SrcTauri.RecorderState) (env : SrcTauri.StartEnv) (e : List Char),
       st.is_recording = false →
       (SrcTauri.startRecording st env).1 = Except.error e →
       e ≠ "Already recording".data →
       (SrcTauri.startRecording st env).2.is_recording = true ∧
       ∀ env2, SrcTauri.startRecording (SrcTauri.startRecording st env).2 env2 =
         (Except.error "Already recording".data, (SrcTauri.startRecording st env).2)) ∧
    (∀ (st : App.RecorderState) (env : App.StartEnv) (e : List Char),
       st.is_recording = false →
       (App.startRecording st env).1 = Except.error e →
       e ≠ "Already recording".data →
       App.isRecording (App.startRecording st env).2 = true ∧
       ∀ env2, App.startRecording (App.startRecording st env).2 env2 =
         (Except.error "Already recording".data, (App.startRecording st env).2)) := by
  constructor
  · intro st env e h _ _
    refine ⟨srcTauri_start_flag st env h, fun env2 => ?_⟩
    exact srcTauri_already _ env2 (srcTauri_start_flag st env h)
  · intro st env e h _ _
    refine ⟨app_start_flag st env h, fun env2 => ?_⟩
    exact app_already _ env2 (app_start_flag st env h)

/-- C10 witness: a concrete failed start (no input device) from idle
leaves the flag set and a concrete second start is refused. -/
theorem c10_error_leaves_flag_set_witness :
    SrcTauri.startRecording
        (SrcTauri.startRecording
          { is_recording := false, stream := none, encoder := none,
            output_file := none, current_file := none }
          { default_input_device := none, device_name := Except.ok "mic".data,
            default_input_config :=
              Except.ok { channels := 1, sample_rate := 48000,
                          sample_format := SampleFormat.f32 },
            create_dir_all := Except.ok (), file_create := Except.ok (),
            timestamp := "20250101_000001".data,
            build_input_stream := Except.ok (), stream_play := Except.ok () }).2
        { default_input_device := some (), device_name := Except.ok "mic".data,
          default_input_config :=
            Except.ok { channels := 1, sample_rate := 48000,
                        sample_format := SampleFormat.f32 },
          create_dir_all := Except.ok (), file_create := Except.ok (),
          timestamp := "20250101_000002".data,
          build_input_stream := Except.ok (), stream_play := Except.ok () }
      = (Except.error "Already recording".data,
         (SrcTauri.startRecording
           { is_recording := false, stream := none, encoder := none,
             output_file := none, current_file := none }
           { default_input_device := none, device_name := Except.ok "mic".data,
             default_input_config :=
               Except.ok { channels := 1, sample_rate := 48000,
                           sample_format := SampleFormat.f32 },
             create_dir_all := Except.ok (), file_create := Except.ok (),
             timestamp := "20250101_000001".data,
             build_input_stream := Except.ok (), stream_play := Except.ok () }).2) :=
  by
  have h := c10_error_leaves_flag_set.1
    { is_recording := false, stream := none, encoder := none,
      output_file := none, current_file := none }
    { default_input_device := none, device_name := Except.ok "mic".data,
      default_input_config :=
        Except.ok { channels := 1, sample_rate := 48000,
                    sample_format := SampleFormat.f32 },
      create_dir_all := Except.ok (), file_create := Except.ok (),
      timestamp := "20250101_000001".data,
      build_input_stream := Except.ok (), stream_play := Except.ok () }
    "No input device available".data rfl rfl (by decide)
  exact h.2 _

/-- C1 counterexample: on the transcript from the spec example, with the
substitution service answering pineapple, the pipeline records pineapple
as the normalized transcript, not the result of the literal find/replace
(which, followed by whitespace cleanup, would give hello, world, again
on three lines); moreover a substitution-service failure fails the whole
call, so a network call is involved in the substitution step. -/
theorem c1_literal_substitution_counterexample :
    processAudioFile (Except.ok "hello slap world slap again".data)
        (fun _ => Except.ok "pineapple".data) (fun _ => Except.ok "zap".data)
        "task".data
      = Except.ok { transcription := "pineapple".data,
                    openai_response := "pineapple".data } ∧
    cleanupWhitespace (specApplySubstitutions replacements "hello slap world slap again".data)
      = "hello\nworld\nagain".data ∧
    "pineapple".data ≠ "hello\nworld\nagain".data ∧
    processAudioFile (Except.ok "hello slap world slap again".data)
        (fun _ => Except.error "connection reset".data) (fun _ => Except.ok "zap".data)
        "task".data
      = Except.error "connection reset".data :=
  ⟨rfl, rfl, by decide, rfl⟩

/-- C1 amended: the substitution step is not a literal find/replace; the
hard-coded rule list and the raw transcript are sent to a remote
text-generation service, the substituted transcript is the cleanup of
the trimmed service response, and a service failure aborts the pipeline
call with the service error. -/
theorem c1_substitution_via_service (raw p : List Char)
    (substO escO : List Char → Except (List Char) (List Char)) :
    (∀ e, substO (substUserMsg replacements raw) = Except.error e →
       processAudioFile (Except.ok raw) substO escO p = Except.error e) ∧
    (∀ content res, substO (substUserMsg replacements raw) = Except.ok content →
       processAudioFile (Except.ok raw) substO escO p = Except.ok res →
       res.transcription = cleanupWhitespace (trimChars content)) := by
  constructor
  · intro e hs
    exact processAudioFile_subst_err raw p e substO escO hs
  · intro content res hs hok
    rw [processAudioFile_subst_ok raw content p substO escO hs] at hok
    by_cases htrig :
        containsSub (toLowerChars (cleanupWhitespace (trimChars content))) triggerPhrase = true
    · rw [if_pos htrig] at hok
      cases hesc : escO (escUserMsg p (cleanupWhitespace (trimChars content))) with
      | error e =>
        rw [hesc] at hok
        simp at hok
      | ok c2 =>
        simp only [hesc, Except.ok.injEq] at hok
        rw [← hok]
    · rw [if_neg htrig] at hok
      simp only [Except.ok.injEq] at hok
      rw [← hok]

/-- C1 witness for the amended theorem: concrete service response. -/
theorem c1_substitution_via_service_witness :
    (AudioProcessingResult.mk "copyedited output".data "copyedited output".data).transcription
      = cleanupWhitespace (trimChars "copyedited output".data) :=
  (c1_substitution_via_service "hello slap there".data "t".data
      (fun _ => Except.ok "copyedited output".data) (fun _ => Except.ok "z".data)).2
    "copyedited output".data
    (AudioProcessingResult.mk "copyedited output".data "copyedited output".data)
    rfl rfl

/-- C2 counterexample: trigger phrase present and the escalation call
fails; the pipeline call of process_audio_file returns an error instead
of succeeding with the normalized transcript. -/
theorem c2_escalation_failure_counterexample :
    processAudioFile (Except.ok "raw words".data)
        (fun _ => Except.ok "note to the editor: ship it".data)
        (fun _ => Except.error "OpenAI API error: boom".data) "task".data
      = Except.error "OpenAI API error: boom".data := rfl

/-- C2 amended: in process_audio_file (src-tauri iteration) a failing
escalation call makes the whole pipeline call fail with the service
error; in stop_recording_and_process (app iteration) the failing
copyedit call is absorbed, the call still succeeds, and the final text
equals the transcript exactly (the warning is only logged, the outcome
record has no warning field). -/
theorem c2_escalation_failure_behaviour :
    (∀ (raw p content e : List Char)
       (substO escO : List Char → Except (List Char) (List Char)),
       substO (substUserMsg replacements raw) = Except.ok content →
       containsSub (toLowerChars (cleanupWhitespace (trimChars content))) triggerPhrase = true →
       escO (escUserMsg p (cleanupWhitespace (trimChars content))) = Except.error e →
       processAudioFile (Except.ok raw) substO escO p = Except.error e) ∧
    (∀ (path t e : List Char) (gptO : List Char → Except (List Char) (List Char)),
       gptO t = Except.error e →
       stopRecordingAndProcess (some path) (Except.ok t) gptO =
         Except.ok { transcription := t, openai_response := t }) := by
  constructor
  · intro raw p content e substO escO hs htrig hesc
    rw [processAudioFile_subst_ok raw content p substO escO hs, if_pos htrig, hesc]
  · intro path t e gptO hg
    simp only [stopRecordingAndProcess, hg]

/-- C2 witness for the amended theorem at concrete oracles. -/
theorem c2_escalation_failure_behaviour_witness :
    processAudioFile (Except.ok "words".data)
        (fun _ => Except.ok "a note to the editor here".data)
        (fun _ => Except.error "OpenAI API error: overloaded".data) "edit".data
      = Except.error "OpenAI API error: overloaded".data ∧
    stopRecordingAndProcess (some "/tmp/a.wav".data) (Except.ok "hi there".data)
        (fun _ => Except.error "OpenAI API error: down".data)
      = Except.ok { transcription := "hi there".data,
                    openai_response := "hi there".data } :=
  ⟨c2_escalation_failure_behaviour.1 "words".data "edit".data
      "a note to the editor here".data "OpenAI API error: overloaded".data
      (fun _ => Except.ok "a note to the editor here".data)
      (fun _ => Except.error "OpenAI API error: overloaded".data)
      rfl (by decide) rfl,
   c2_escalation_failure_behaviour.2 "/tmp/a.wav".data "hi there".data
      "OpenAI API error: down".data (fun _ => Except.error "OpenAI API error: down".data) rfl⟩

/-- C3: the escalation decision of process_audio_file is exactly the
case-insensitive substring scan of the normalized transcript for the
fixed phrase: when the phrase is absent, the escalation service is not
consulted (the outcome does not depend on it) and the final text equals
the normalized transcript; when present, the outcome tracks the
escalation service response (trimmed on success, error propagated on
failure). -/
theorem c3_trigger_phrase_scan (raw content p : List Char)
    (substO escO escO2 : List Char → Except (List Char) (List Char))
    (hs : substO (substUserMsg replacements raw) = Except.ok content) :
    (containsSub (toLowerChars (cleanupWhitespace (trimChars content))) triggerPhrase = false →
       processAudioFile (Except.ok raw) substO escO p =
         Except.ok { transcription := cleanupWhitespace (trimChars content),
                     openai_response := cleanupWhitespace (trimChars content) } ∧
       processAudioFile (Except.ok raw) substO escO p =
         processAudioFile (Except.ok raw) substO escO2 p) ∧
    (containsSub (toLowerChars (cleanupWhitespace (trimChars content))) triggerPhrase = true →
       (∀ c2, escO (escUserMsg p (cleanupWhitespace (trimChars content))) = Except.ok c2 →
          processAudioFile (Except.ok raw) substO escO p =
            Except.ok { transcription := cleanupWhitespace (trimChars content),
                        openai_response := trimChars c2 }) ∧
       (∀ e, escO (escUserMsg p (cleanupWhitespace (trimChars content))) = Except.error e →
          processAudioFile (Except.ok raw) substO escO p = Except.error e)) := by
  constructor
  · intro htrig
    have hOne := processAudioFile_subst_ok raw content p substO escO hs
    have hTwo := processAudioFile_subst_ok raw content p substO escO2 hs
    rw [if_neg (by rw [htrig]; simp)] at hOne
    rw [if_neg (by rw [htrig]; simp)] at hTwo
    constructor
    · rw [hOne, trim_cleanup_trimChars]
    · rw [hOne, hTwo]
  · intro htrig
    have hOne := processAudioFile_subst_ok raw content p substO escO hs
    rw [if_pos htrig] at hOne
    constructor
    · intro c2 hesc
      rw [hOne]
      simp only [hesc]
    · intro e hesc
      rw [hOne]
      simp only [hesc]

/-- C3 witness: a transcript without the phrase keeps the normalized
text; an upper-case occurrence of the phrase escalates. -/
theorem c3_trigger_phrase_scan_witness :
    processAudioFile (Except.ok "x".data) (fun _ => Except.ok "hello world".data)
        (fun _ => Except.ok "REPLY".data) "task".data
      = Except.ok { transcription := "hello world".data,
                    openai_response := "hello world".data } ∧
    processAudioFile (Except.ok "x".data)
        (fun _ => Except.ok "NOTE TO THE EDITOR: SHIP IT".data)
        (fun _ => Except.ok "rewritten".data) "task".data
      = Except.ok { transcription := "NOTE TO THE EDITOR: SHIP IT".data,
                    openai_response := "rewritten".data } :=
  ⟨((c3_trigger_phrase_scan "x".data "hello world".data "task".data
        (fun _ => Except.ok "hello world".data) (fun _ => Except.ok "REPLY".data)
        (fun _ => Except.ok "OTHER".data) rfl).1 (by decide)).1,
   ((c3_trigger_phrase_scan "x".data "NOTE TO THE EDITOR: SHIP IT".data "task".data
        (fun _ => Except.ok "NOTE TO THE EDITOR: SHIP IT".data)
        (fun _ => Except.ok "rewritten".data)
        (fun _ => Except.ok "OTHER".data) rfl).2 (by decide)).1 "rewritten".data rfl⟩

/-- C5 counterexample: an empty raw transcript is not short-circuited:
the substitution service is still consulted and its answer becomes the
final text (nonempty), and when that answer contains the trigger phrase
the escalation service is consulted as well. -/
theorem c5_empty_transcript_counterexample :
    processAudioFile (Except.ok []) (fun _ => Except.ok "x".data)
        (fun _ => Except.ok "y".data) "task".data
      = Except.ok { transcription := "x".data, openai_response := "x".data } ∧
    "x".data ≠ ([] : List Char) ∧
    processAudioFile (Except.ok []) (fun _ => Except.ok "note to the editor".data)
        (fun _ => Except.ok "ESCALATED".data) "task".data
      = Except.ok { transcription := "note to the editor".data,
                    openai_response := "ESCALATED".data } :=
  ⟨rfl, by decide, rfl⟩

/-- C5 amended: an empty raw transcript is processed like any other: the
substitution text-generation call is still made (the hard-coded rule
list is nonempty) and its outcome alone determines the pipeline result,
so the final text is the cleaned-up service response rather than the
empty string, and the escalation decision is evaluated on that response.
-/
theorem c5_empty_transcript_no_short_circuit
    (substO escO : List Char → Except (List Char) (List Char)) (p : List Char) :
    (∀ e, substO (substUserMsg replacements []) = Except.error e →
       processAudioFile (Except.ok []) substO escO p = Except.error e) ∧
    (∀ content,
       substO (substUserMsg replacements []) = Except.ok content →
       containsSub (toLowerChars (cleanupWhitespace (trimChars content))) triggerPhrase = false →
       processAudioFile (Except.ok []) substO escO p =
         Except.ok { transcription := cleanupWhitespace (trimChars content),
                     openai_response := cleanupWhitespace (trimChars content) }) := by
  constructor
  · intro e hs
    exact processAudioFile_subst_err [] p e substO escO hs
  · intro content hs htrig
    rw [processAudioFile_subst_ok [] content p substO escO hs,
      if_neg (by rw [htrig]; simp), trim_cleanup_trimChars]

/-- C5 witness for the amended theorem. -/
theorem c5_empty_transcript_no_short_circuit_witness :
    processAudioFile (Except.ok []) (fun _ => Except.ok "still talking".data)
        (fun _ => Except.ok "unused".data) "p".data
      = Except.ok { transcription := "still talking".data,
                    openai_response := "still talking".data } :=
  (c5_empty_transcript_no_short_circuit (fun _ => Except.ok "still talking".data)
      (fun _ => Except.ok "unused".data) "p".data).2 "still talking".data rfl (by decide)

/-- C6: whenever no escalation happened the final text equals the
transcript field exactly: in process_audio_file, a successful outcome
whose transcript does not contain the trigger phrase has
openai_response equal to transcription; in the app iteration, a failing
copyedit call yields an outcome with openai_response equal to
transcription. -/
theorem c6_final_text_equals_transcript :
    (∀ (raw p : List Char) (substO escO : List Char → Except (List Char) (List Char))
       (res : AudioProcessingResult),
       processAudioFile (Except.ok raw) substO escO p = Except.ok res →
       containsSub (toLowerChars res.transcription) triggerPhrase = false →
       res.openai_response = res.transcription) ∧
    (∀ (path t e : List Char) (gptO : List Char → Except (List Char) (List Char))
       (res : AudioProcessingResult),
       gptO t = Except.error e →
       stopRecordingAndProcess (some path) (Except.ok t) gptO = Except.ok res →
       res.openai_response = res.transcription) := by
  constructor
  · intro raw p substO escO res hok htrig
    cases hs : substO (substUserMsg replacements raw) with
    | error e =>
      rw [processAudioFile_subst_err raw p e substO escO hs] at hok
      simp at hok
    | ok content =>
      rw [processAudioFile_subst_ok raw content p substO escO hs] at hok
      by_cases htrig2 :
          containsSub (toLowerChars (cleanupWhitespace (trimChars content))) triggerPhrase = true
      · rw [if_pos htrig2] at hok
        cases hesc : escO (escUserMsg p (cleanupWhitespace (trimChars content))) with
        | error e2 =>
          rw [hesc] at hok
          simp at hok
        | ok c2 =>
          simp only [hesc, Except.ok.injEq] at hok
          rw [← hok] at htrig
          exact absurd htrig2 (by simpa using htrig)
      · rw [if_neg htrig2] at hok
        simp only [Except.ok.injEq] at hok
        rw [← hok]
        exact trim_cleanup_trimChars content
  · intro path t e gptO res hg hok
    simp only [stopRecordingAndProcess, hg, Except.ok.injEq] at hok
    rw [← hok]

/-- C6 witness: one no-trigger pipeline outcome and one failed-copyedit
outcome of the app iteration. -/
theorem c6_final_text_equals_transcript_witness :
    (AudioProcessingResult.mk "plain words".data "plain words".data).openai_response
      = (AudioProcessingResult.mk "plain words".data "plain words".data).transcription ∧
    (AudioProcessingResult.mk "talk".data "talk".data).openai_response
      = (AudioProcessingResult.mk "talk".data "talk".data).transcription :=
  ⟨c6_final_text_equals_transcript.1 "x".data "p".data
      (fun _ => Except.ok "plain words".data) (fun _ => Except.ok "r".data)
      (AudioProcessingResult.mk "plain words".data "plain words".data) rfl (by decide),
   c6_final_text_equals_transcript.2 "/tmp/a.wav".data "talk".data "err".data
      (fun _ => Except.error "err".data)
      (AudioProcessingResult.mk "talk".data "talk".data) rfl rfl⟩

theorem linesChars_single : ∀ (t : List Char), t ≠ [] →
    (∀ ch ∈ t, ¬ ch = '\n') → linesChars t = [t]
  | [], h, _ => absurd rfl h
  | [c], _, hno => by
    simp only [linesChars]
    rw [if_neg (hno c (List.mem_singleton_self c))]
  | c :: d :: rest, _, hno => by
    simp only [linesChars]
    rw [if_neg (hno c (by simp))]
    rw [if_neg (fun hand => hno d (by simp) hand.2)]
    rw [linesChars_single (d :: rest) (by simp)
      (fun ch hch => hno ch (List.mem_cons_of_mem c hch))]

theorem collapse_spaces_run : ∀ (n : Nat) (c : Char) (rest : List Char), ¬ c = ' ' →
    collapseDoubleSpaces (List.replicate n ' ' ++ c :: rest)
      = List.replicate ((n + 1) / 2) ' ' ++ c :: collapseDoubleSpaces rest
  | 0, c, rest, h => by
    rw [List.replicate_zero, List.nil_append, List.nil_append,
      collapse_cons_ne c rest h]
  | 1, c, rest, h => by
    rw [List.replicate_succ, List.replicate_zero, List.cons_append, List.nil_append]
    simp only [collapseDoubleSpaces]
    rw [if_neg (fun hand => h hand.2)]
    rw [collapse_cons_ne c rest h]
    rfl
  | n + 2, c, rest, h => by
    rw [List.replicate_succ, List.replicate_succ, List.cons_append, List.cons_append]
    simp only [collapseDoubleSpaces]
    rw [if_pos (by decide)]
    rw [collapse_spaces_run n c rest h]
    have harith : (n + 2 + 1) / 2 = (n + 1) / 2 + 1 := by omega
    rw [harith, List.replicate_succ, List.cons_append]

/-- C4 counterexample: cleanup leaves two of three spaces (the claim
says every run of two or more collapses to one) and keeps blank lines
(the claim says they are dropped or compacted); the spec-modelled
cleanup differs from the implemented one on both inputs. -/
theorem c4_whitespace_cleanup_counterexample :
    cleanupWhitespace "a   b".data = "a  b".data ∧
    "a  b".data ≠ "a b".data ∧
    specCleanup "a   b".data = "a b".data ∧
    cleanupWhitespace "a\n\n\nb".data = "a\n\n\nb".data ∧
    specCleanup "a\n\n\nb".data = "a\nb".data :=
  ⟨rfl, by decide, rfl, rfl, rfl⟩

/-- C4 amended: whitespace cleanup trims each line and rejoins the lines
with line feeds, preserving blank lines, then makes one non-overlapping
left-to-right pass replacing each pair of spaces by one space, so an
interior run of n spaces becomes the rounded-up half of n spaces (not
one space for n of three or more), and interior non-space whitespace
such as tabs is untouched. -/
theorem c4_whitespace_cleanup_amended :
    (∀ n : Nat,
       cleanupWhitespace ('a' :: (List.replicate n ' ' ++ ['b']))
         = 'a' :: (List.replicate ((n + 1) / 2) ' ' ++ ['b'])) ∧
    cleanupWhitespace "  x\ty  \n\n z  w".data = "x\ty\n\nz w".data := by
  constructor
  · intro n
    have hnl : ∀ ch ∈ ('a' :: (List.replicate n ' ' ++ ['b'])), ¬ ch = '\n' := by
      intro ch hch
      rw [List.mem_cons, List.mem_append, List.mem_replicate, List.mem_singleton] at hch
      rcases hch with h1 | ⟨_, h2⟩ | h3
      · rw [h1]; decide
      · rw [h2]; decide
      · rw [h3]; decide
    have hlines := linesChars_single ('a' :: (List.replicate n ' ' ++ ['b']))
      (by simp) hnl
    have htrim : trimChars ('a' :: (List.replicate n ' ' ++ ['b']))
        = 'a' :: (List.replicate n ' ' ++ ['b']) := by
      apply trimChars_eq_self
      · intro ch hc
        rw [List.head?_cons, Option.some.injEq] at hc
        rw [← hc]
        decide
      · intro d hd
        rw [show ('a' :: (List.replicate n ' ' ++ ['b']))
              = ('a' :: List.replicate n ' ') ++ ['b'] from by rw [List.cons_append],
          List.getLast?_concat, Option.some.injEq] at hd
        rw [← hd]
        decide
    rw [cleanupWhitespace, hlines, List.map_cons, List.map_nil, htrim]
    rw [show joinNL ['a' :: (List.replicate n ' ' ++ ['b'])]
          = 'a' :: (List.replicate n ' ' ++ ['b']) from rfl]
    rw [collapse_cons_ne _ _ (by decide)]
    rw [collapse_spaces_run n 'b' [] (by decide)]
    rfl
  · rfl
